import Mathlib

/-!
Verification development for the microphone-capture / voice-activity
segmentation module (`src/src-tauri/src/mic.rs`).

Modelling conventions:
* `f32` audio samples are modelled as exact rationals (`ℚ`).  The VAD
  decisions only compare energies against fixed positive thresholds, so the
  comparison `sqrt (sumsq / len) > rms_threshold` is modelled by the
  equivalent (for a nonnegative threshold) `sumsq / len > rms_threshold ^ 2`,
  which keeps everything inside `ℚ`.
* The WAV container and the base64 transport encoding produced by the
  external crates (`hound`, `base64`) are injective serialisations of the
  written 16-bit PCM words plus the header metadata; the model represents an
  encoded clip by exactly that information (`WavClip`).
* Rust's `while self.buffer.len() >= self.hop_size` loop consumes
  `hop_size = 1024 > 0` samples per iteration, so the number of iterations is
  bounded by the buffer length; the model makes this explicit with a fuel
  parameter so that the function stays structurally recursive (and hence
  kernel-evaluable on concrete inputs).
-/

/-- Fixed analysis-frame ("hop") size, in samples (`hop_size` in `VadState::new`). -/
def hop_size : Nat := 1024

/-- RMS energy threshold (`rms_threshold` in `VadState::new`). -/
def rms_threshold : ℚ := 0.015

/-- Peak amplitude threshold (`peak_threshold` in `VadState::new`). -/
def peak_threshold : ℚ := 0.04

/-- Consecutive silent frames needed to close an utterance
(`silence_chunks_needed` in `VadState::new`). -/
def silence_chunks_needed : Nat := 40

/-- Minimum accumulated speech frames for a closed utterance to be emitted
(`min_speech_chunks` in `VadState::new`). -/
def min_speech_chunks : Nat := 5

/-- Capacity of the rolling pre-speech buffer, in samples
(`pre_speech_samples = hop_size * 10` in `VadState::new`). -/
def pre_speech_samples : Nat := hop_size * 10

/-- Hard duration cap on the speech buffer, in samples
(`max_samples = sample_rate as usize * 30` in `VadState::feed`). -/
def maxSamples (sample_rate : Nat) : Nat := sample_rate * 30

/-- The fields of `struct VadState` that the per-frame body of
`VadState::feed` reads and writes.  The carry `buffer` is kept apart (in
`VadState`) because the frame body never touches it — the enclosing `while`
loop drains it. -/
structure VadCore where
  sample_rate : Nat
  pre_speech_buffer : List ℚ
  speech_buffer : List ℚ
  in_speech : Bool
  silence_count : Nat
  speech_count : Nat
  deriving DecidableEq

/-- The mutable state of the segmentation engine (struct `VadState`).
The tunables that `VadState::new` always sets to the same constants are
modelled as the top-level constants above. -/
structure VadState where
  sample_rate : Nat
  buffer : List ℚ
  pre_speech_buffer : List ℚ
  speech_buffer : List ℚ
  in_speech : Bool
  silence_count : Nat
  speech_count : Nat
  deriving DecidableEq

/-- The non-buffer fields of a `VadState`. -/
def VadState.core (s : VadState) : VadCore :=
  { sample_rate := s.sample_rate
    pre_speech_buffer := s.pre_speech_buffer
    speech_buffer := s.speech_buffer
    in_speech := s.in_speech
    silence_count := s.silence_count
    speech_count := s.speech_count }

/-- Reassemble a full state from a core and a carry buffer. -/
def VadCore.withBuffer (t : VadCore) (buffer : List ℚ) : VadState :=
  { sample_rate := t.sample_rate
    buffer := buffer
    pre_speech_buffer := t.pre_speech_buffer
    speech_buffer := t.speech_buffer
    in_speech := t.in_speech
    silence_count := t.silence_count
    speech_count := t.speech_count }

/-- `VadState::new`. -/
def VadState.new (sample_rate : Nat) : VadState :=
  { sample_rate := sample_rate
    buffer := []
    pre_speech_buffer := []
    speech_buffer := []
    in_speech := false
    silence_count := 0
    speech_count := 0 }

/-- Sum of squares and peak absolute amplitude of one frame (the single pass
`for &v in &chunk` inside `VadState::feed`). -/
def frameStats (chunk : List ℚ) : ℚ × ℚ :=
  chunk.foldl (fun acc v => (acc.1 + v * v, max acc.2 |v|)) (0, 0)

/-- Frame classification
`rms > self.rms_threshold || peak > self.peak_threshold` where
`rms = sqrt (sumsq / chunk.len())`.  Since both sides of the RMS comparison
are nonnegative, it is equivalent to comparing the squares, which is what the
model does. -/
def isSpeech (chunk : List ℚ) : Bool :=
  decide ((frameStats chunk).1 / (chunk.length : ℚ) > rms_threshold ^ 2)
    || decide ((frameStats chunk).2 > peak_threshold)

/-- Rust `f32::clamp(-1.0, 1.0)`. -/
def clampUnit (s : ℚ) : ℚ :=
  if s < -1 then -1 else if 1 < s then 1 else s

/-- The 16-bit PCM word written for one sample:
`(s.clamp(-1.0, 1.0) * i16::MAX as f32) as i16`.  The float-to-int `as` cast
truncates toward zero (the scaled value always fits in `i16`, so no
saturation occurs). -/
def toI16 (s : ℚ) : ℤ :=
  let scaled := clampUnit s * 32767
  if 0 ≤ scaled then ⌊scaled⌋ else ⌈scaled⌉

/-- An encoded clip: the metadata of the WAV header (`WavSpec`) together with
the sequence of written 16-bit PCM words.  The actual byte-level WAV container
and its base64 rendering are injective images of this data. -/
structure WavClip where
  sample_rate : Nat
  channels : Nat
  bits_per_sample : Nat
  data : List ℤ
  deriving DecidableEq

/-- `samples_to_wav_b64`: fails on an empty buffer, otherwise writes every
sample as a clamped-and-scaled 16-bit word into a mono 16-bit container. -/
def samples_to_wav_b64 (sample_rate : Nat) (mono_f32 : List ℚ) :
    Except String WavClip :=
  if mono_f32.isEmpty then .error "Empty audio buffer"
  else .ok { sample_rate := sample_rate
             channels := 1
             bits_per_sample := 16
             data := mono_f32.map toI16 }

/-- One iteration of the frame loop inside `VadState::feed`: the body of
`while self.buffer.len() >= self.hop_size` applied to one drained `chunk`,
acting on the six fields the body reads and writes. -/
def processFrameCore (s : VadCore) (chunk : List ℚ) : VadCore × List WavClip :=
  if isSpeech chunk then
    -- speech frame: (re-)enter speech, extend the buffer, reset silence
    let base := if s.in_speech then s.speech_buffer else s.pre_speech_buffer
    let cnt := if s.in_speech then s.speech_count else 0
    let buf := base ++ chunk
    let s1 : VadCore :=
      { s with in_speech := true
               speech_count := cnt + 1
               speech_buffer := buf
               silence_count := 0 }
    if buf.length > maxSamples s.sample_rate then
      -- duration cap: force-emit the whole buffer and reset
      let out := match samples_to_wav_b64 s.sample_rate buf with
        | .ok clip => [clip]
        | .error _ => []
      ({ s1 with speech_buffer := [], in_speech := false, speech_count := 0 },
       out)
    else (s1, [])
  else if s.in_speech then
    -- silent frame while in speech
    let buf := s.speech_buffer ++ chunk
    let s1 : VadCore :=
      { s with silence_count := s.silence_count + 1, speech_buffer := buf }
    if s1.silence_count ≥ silence_chunks_needed then
      -- silence close: emit (trimming trailing silence) or discard
      let out :=
        if s1.speech_count ≥ min_speech_chunks ∧ ¬buf.isEmpty then
          let silence_samples := s1.silence_count * hop_size
          let keep := s1.sample_rate * 15 / 100
          let trim := silence_samples - keep
          let buf2 := if buf.length > trim
                      then buf.take (buf.length - trim)
                      else buf
          match samples_to_wav_b64 s1.sample_rate buf2 with
          | .ok clip => [clip]
          | .error _ => []
        else []
      ({ s1 with speech_buffer := [], in_speech := false,
                 silence_count := 0, speech_count := 0 },
       out)
    else (s1, [])
  else
    -- idle: maintain the rolling pre-speech buffer with FIFO eviction
    let pre := s.pre_speech_buffer ++ chunk
    let pre2 := if pre.length > pre_speech_samples
                then pre.drop (pre.length - pre_speech_samples)
                else pre
    ({ s with pre_speech_buffer := pre2 }, [])

/-- The frame body lifted to the full state: the carry buffer rides along
unchanged (the body neither reads nor writes it). -/
def processFrame (s : VadState) (chunk : List ℚ) : VadState × List WavClip :=
  let r := processFrameCore s.core chunk
  (r.1.withBuffer s.buffer, r.2)

/-- Frame loop applied to an explicit list of frames, collecting emitted
clips in frame-arrival order. -/
def processFrames (s : VadState) (frames : List (List ℚ)) :
    VadState × List WavClip :=
  match frames with
  | [] => (s, [])
  | f :: rest =>
    let a := processFrame s f
    let b := processFrames a.1 rest
    (b.1, a.2 ++ b.2)

/-- The drain loop of `VadState::feed`.  Each iteration of the Rust loop
removes `hop_size = 1024` samples from the front of `self.buffer` and runs
the frame body on them; `fuel` bounds the number of iterations (the caller
supplies the buffer length, which suffices). -/
def drainLoop : Nat → VadState → VadState × List WavClip
  | 0, s => (s, [])
  | fuel + 1, s =>
    if hop_size ≤ s.buffer.length then
      let chunk := s.buffer.take hop_size
      let a := processFrame { s with buffer := s.buffer.drop hop_size } chunk
      let b := drainLoop fuel a.1
      (b.1, a.2 ++ b.2)
    else (s, [])

/-- `VadState::feed`: append the input to the carry buffer, then drain whole
frames from its front, returning the emitted clips in order. -/
def VadState.feed (s : VadState) (mono_samples : List ℚ) :
    VadState × List WavClip :=
  drainLoop (s.buffer.length + mono_samples.length)
    { s with buffer := s.buffer ++ mono_samples }

/-- Frame chunking of a raw buffer: the list of full `hop_size` frames taken
from the front, plus the remainder (shorter than one frame).  `fuel` as in
`drainLoop`. -/
def chunksGo : Nat → List ℚ → List (List ℚ) × List ℚ
  | 0, buf => ([], buf)
  | fuel + 1, buf =>
    if hop_size ≤ buf.length then
      let r := chunksGo fuel (buf.drop hop_size)
      (buf.take hop_size :: r.1, r.2)
    else ([], buf)

/-- Frame chunking with sufficient fuel. -/
def chunks (buf : List ℚ) : List (List ℚ) × List ℚ :=
  chunksGo buf.length buf

/-! ### Frame-level evaluation lemmas -/

/-- Closed form of the stats fold on a constant frame. -/
theorem frameStats_foldl_replicate (n : Nat) (a b c : ℚ) :
    (List.replicate n c).foldl (fun acc v => (acc.1 + v * v, max acc.2 |v|))
      (a, b) = (a + n * (c * c), if n = 0 then b else max b |c|) := by
  induction n generalizing a b with
  | zero => simp
  | succ n ih =>
    rw [List.replicate_succ, List.foldl_cons, ih]
    rcases Nat.eq_zero_or_pos n with h | h
    · subst h
      refine Prod.ext ?_ ?_
      · simp only
        push_cast
        ring
      · simp
    · have hn : n ≠ 0 := Nat.pos_iff_ne_zero.mp h
      refine Prod.ext ?_ ?_
      · simp only
        push_cast
        ring
      · simp [hn, max_assoc, max_self]

theorem frameStats_replicate (n : Nat) (c : ℚ) :
    frameStats (List.replicate n c) =
      (n * (c * c), if n = 0 then 0 else |c|) := by
  rw [frameStats, frameStats_foldl_replicate]
  rcases Nat.eq_zero_or_pos n with h | h
  · simp [h]
  · have : n ≠ 0 := Nat.pos_iff_ne_zero.mp h
    simp [this]

theorem isSpeech_replicate_zero : isSpeech (List.replicate 1024 (0 : ℚ)) = false := by
  rw [isSpeech, frameStats_replicate]
  norm_num [rms_threshold, peak_threshold]

theorem isSpeech_replicate_one : isSpeech (List.replicate 1024 (1 : ℚ)) = true := by
  rw [isSpeech, frameStats_replicate]
  norm_num [rms_threshold, peak_threshold]

/-! ### Branch lemmas for `processFrame` -/

/-- Speech frame while already in speech, cap not reached. -/
theorem processFrame_speech_stay (s : VadState) (c : List ℚ)
    (hin : s.in_speech = true) (hc : isSpeech c = true)
    (hlen : ¬ (s.speech_buffer ++ c).length > maxSamples s.sample_rate) :
    processFrame s c =
      ({ s with in_speech := true, speech_count := s.speech_count + 1,
                speech_buffer := s.speech_buffer ++ c, silence_count := 0 },
       []) := by
  have hnlt : ¬ (maxSamples s.sample_rate < s.speech_buffer.length + c.length) := by
    simpa [List.length_append] using hlen
  simp [processFrame, processFrameCore, VadState.core, VadCore.withBuffer, hc, hin, hnlt]

/-- Speech frame while already in speech, cap exceeded: force-emit. -/
theorem processFrame_speech_cap (s : VadState) (c : List ℚ)
    (hin : s.in_speech = true) (hc : isSpeech c = true)
    (hlen : (s.speech_buffer ++ c).length > maxSamples s.sample_rate)
    (hne : ¬ (s.speech_buffer ++ c).isEmpty) :
    processFrame s c =
      ({ s with in_speech := false, speech_count := 0,
                speech_buffer := [], silence_count := 0 },
       [{ sample_rate := s.sample_rate, channels := 1, bits_per_sample := 16,
          data := (s.speech_buffer ++ c).map toI16 }]) := by
  have hlt : maxSamples s.sample_rate < s.speech_buffer.length + c.length := by
    simpa [List.length_append] using hlen
  have hne' : s.speech_buffer ++ c ≠ [] := by
    simpa [List.isEmpty_iff] using hne
  simp [processFrame, processFrameCore, VadState.core, VadCore.withBuffer, hc,
    hin, hlt, samples_to_wav_b64, hne']

/-- First speech frame from idle, cap not reached: seed from the pre-speech
buffer. -/
theorem processFrame_onset (s : VadState) (c : List ℚ)
    (hin : s.in_speech = false) (hc : isSpeech c = true)
    (hlen : ¬ (s.pre_speech_buffer ++ c).length > maxSamples s.sample_rate) :
    processFrame s c =
      ({ s with in_speech := true, speech_count := 1,
                speech_buffer := s.pre_speech_buffer ++ c, silence_count := 0 },
       []) := by
  have hnlt : ¬ (maxSamples s.sample_rate < s.pre_speech_buffer.length + c.length) := by
    simpa [List.length_append] using hlen
  simp [processFrame, processFrameCore, VadState.core, VadCore.withBuffer, hc, hin, hnlt]

/-- First speech frame from idle with the cap immediately exceeded. -/
theorem processFrame_onset_cap (s : VadState) (c : List ℚ)
    (hin : s.in_speech = false) (hc : isSpeech c = true)
    (hlen : (s.pre_speech_buffer ++ c).length > maxSamples s.sample_rate)
    (hne : ¬ (s.pre_speech_buffer ++ c).isEmpty) :
    processFrame s c =
      ({ s with in_speech := false, speech_count := 0,
                speech_buffer := [], silence_count := 0 },
       [{ sample_rate := s.sample_rate, channels := 1, bits_per_sample := 16,
          data := (s.pre_speech_buffer ++ c).map toI16 }]) := by
  have hlt : maxSamples s.sample_rate < s.pre_speech_buffer.length + c.length := by
    simpa [List.length_append] using hlen
  have hne' : s.pre_speech_buffer ++ c ≠ [] := by
    simpa [List.isEmpty_iff] using hne
  simp [processFrame, processFrameCore, VadState.core, VadCore.withBuffer, hc,
    hin, hlt, samples_to_wav_b64, hne']

/-- Silent frame in speech, silence run still shorter than the close
threshold. -/
theorem processFrame_silence_stay (s : VadState) (c : List ℚ)
    (hin : s.in_speech = true) (hc : isSpeech c = false)
    (hcnt : s.silence_count + 1 < silence_chunks_needed) :
    processFrame s c =
      ({ s with silence_count := s.silence_count + 1,
                speech_buffer := s.speech_buffer ++ c },
       []) := by
  simp [processFrame, processFrameCore, VadState.core, VadCore.withBuffer, hc, hin, Nat.not_le.mpr hcnt]

/-- Silence close with too few speech frames: discard, emit nothing. -/
theorem processFrame_silence_close_discard (s : VadState) (c : List ℚ)
    (hin : s.in_speech = true) (hc : isSpeech c = false)
    (hcnt : silence_chunks_needed ≤ s.silence_count + 1)
    (hshort : s.speech_count < min_speech_chunks) :
    processFrame s c =
      ({ s with speech_buffer := [], in_speech := false,
                silence_count := 0, speech_count := 0 },
       []) := by
  simp [processFrame, processFrameCore, VadState.core, VadCore.withBuffer, hc, hin, hcnt, Nat.not_le.mpr hshort]

/-- Silence close of an accepted utterance: emit the buffer with the trailing
silence trimmed down to the retained tail. -/
theorem processFrame_silence_close_emit (s : VadState) (c : List ℚ)
    (hin : s.in_speech = true) (hc : isSpeech c = false)
    (hcnt : silence_chunks_needed ≤ s.silence_count + 1)
    (hlong : min_speech_chunks ≤ s.speech_count)
    (hne : ¬ (s.speech_buffer ++ c).isEmpty) :
    processFrame s c =
      ({ s with speech_buffer := [], in_speech := false,
                silence_count := 0, speech_count := 0 },
       [{ sample_rate := s.sample_rate, channels := 1, bits_per_sample := 16,
          data :=
            (if (s.speech_buffer ++ c).length >
                  (s.silence_count + 1) * hop_size - s.sample_rate * 15 / 100
             then (s.speech_buffer ++ c).take
                ((s.speech_buffer ++ c).length -
                  ((s.silence_count + 1) * hop_size - s.sample_rate * 15 / 100))
             else s.speech_buffer ++ c).map toI16 }]) := by
  have hne' : s.speech_buffer ++ c ≠ [] := by
    intro h
    rw [h] at hne
    simp at hne
  by_cases htrim : (s.speech_buffer ++ c).length >
      (s.silence_count + 1) * hop_size - s.sample_rate * 15 / 100
  · have hlt : (s.silence_count + 1) * hop_size - s.sample_rate * 15 / 100 <
        s.speech_buffer.length + c.length := by
      simpa [List.length_append] using htrim
    have hbuf2 : List.take
        (s.speech_buffer.length + c.length -
          ((s.silence_count + 1) * hop_size - s.sample_rate * 15 / 100))
        (s.speech_buffer ++ c) ≠ [] := by
      rw [Ne, List.take_eq_nil_iff]
      push_neg
      exact ⟨by omega, hne'⟩
    simp [processFrame, processFrameCore, VadState.core, VadCore.withBuffer, hc, hin, hcnt, hlong, hne, hlt,
      samples_to_wav_b64, hbuf2]
  · have hnlt : ¬ ((s.silence_count + 1) * hop_size - s.sample_rate * 15 / 100 <
        s.speech_buffer.length + c.length) := by
      simpa [List.length_append] using htrim
    simp [processFrame, processFrameCore, VadState.core, VadCore.withBuffer, hc, hin, hcnt, hlong, hne, hnlt,
      samples_to_wav_b64, hne']

/-- Silent frame while idle, pre-speech buffer still within capacity. -/
theorem processFrame_idle_small (s : VadState) (c : List ℚ)
    (hin : s.in_speech = false) (hc : isSpeech c = false)
    (hlen : ¬ (s.pre_speech_buffer ++ c).length > pre_speech_samples) :
    processFrame s c =
      ({ s with pre_speech_buffer := s.pre_speech_buffer ++ c }, []) := by
  have hnlt : ¬ (pre_speech_samples < s.pre_speech_buffer.length + c.length) := by
    simpa [List.length_append] using hlen
  simp [processFrame, processFrameCore, VadState.core, VadCore.withBuffer, hc, hin, hnlt]

/-- Silent frame while idle with FIFO eviction of the oldest samples. -/
theorem processFrame_idle_evict (s : VadState) (c : List ℚ)
    (hin : s.in_speech = false) (hc : isSpeech c = false)
    (hlen : (s.pre_speech_buffer ++ c).length > pre_speech_samples) :
    processFrame s c =
      ({ s with pre_speech_buffer :=
          ((s.pre_speech_buffer ++ c).drop
            ((s.pre_speech_buffer ++ c).length - pre_speech_samples)) },
       []) := by
  have hlt : pre_speech_samples < s.pre_speech_buffer.length + c.length := by
    simpa [List.length_append] using hlen
  simp [processFrame, processFrameCore, VadState.core, VadCore.withBuffer, hc, hin, hlt]

/-- `processFrame` never touches the carry buffer. -/
theorem processFrame_buffer (s : VadState) (c : List ℚ) :
    (processFrame s c).1.buffer = s.buffer := rfl

/-- `processFrame` never changes the sample rate. -/
theorem processFrame_sample_rate (s : VadState) (c : List ℚ) :
    (processFrame s c).1.sample_rate = s.sample_rate := by
  show (processFrameCore s.core c).1.sample_rate = s.sample_rate
  unfold processFrameCore samples_to_wav_b64
  dsimp only
  repeat' split
  all_goals rfl

/-- `processFrame` neither reads nor writes the carry buffer: running it on a
state with a replaced buffer gives the same result with that buffer. -/
theorem processFrame_set_buffer (s : VadState) (x c : List ℚ) :
    processFrame { s with buffer := x } c =
      ({ (processFrame s c).1 with buffer := x }, (processFrame s c).2) := rfl

/-! ### Decomposition of `feed` into chunking plus the frame loop -/

/-- `processFrames` ignores and preserves the carry buffer. -/
theorem processFrames_set_buffer (frames : List (List ℚ)) (s : VadState)
    (x : List ℚ) :
    processFrames { s with buffer := x } frames =
      ({ (processFrames s frames).1 with buffer := x },
       (processFrames s frames).2) := by
  induction frames generalizing s x with
  | nil => rfl
  | cons f rest ih =>
    simp only [processFrames]
    rw [processFrame_set_buffer]
    dsimp only
    rw [ih]

theorem chunksGo_fuel_irrel (f1 : Nat) :
    ∀ (f2 : Nat) (buf : List ℚ), buf.length ≤ f1 → buf.length ≤ f2 →
      chunksGo f1 buf = chunksGo f2 buf := by
  induction f1 with
  | zero =>
    intro f2 buf h1 _
    have : buf = [] := List.length_eq_zero.mp (Nat.le_zero.mp h1)
    subst this
    cases f2 <;> simp [chunksGo, hop_size]
  | succ n ih =>
    intro f2 buf h1 h2
    by_cases hh : hop_size ≤ buf.length
    · have hf2 : ∃ m, f2 = m + 1 := by
        refine ⟨f2 - 1, ?_⟩
        have : 1 ≤ f2 := le_trans (le_trans (by norm_num [hop_size]) hh) h2
        omega
      obtain ⟨m, rfl⟩ := hf2
      have hlen : (buf.drop hop_size).length ≤ n := by
        rw [List.length_drop]
        have : 0 < hop_size := by norm_num [hop_size]
        omega
      have hlen2 : (buf.drop hop_size).length ≤ m := by
        rw [List.length_drop]
        have : 0 < hop_size := by norm_num [hop_size]
        omega
      simp only [chunksGo, hh, if_true]
      rw [ih m (buf.drop hop_size) hlen hlen2]
    · cases f2 <;> simp [chunksGo, hh]

/-- After chunking, the remainder is shorter than one frame. -/
theorem chunksGo_remainder_lt (fuel : Nat) :
    ∀ buf : List ℚ, buf.length ≤ fuel →
      (chunksGo fuel buf).2.length < hop_size := by
  induction fuel with
  | zero =>
    intro buf h
    have : buf = [] := List.length_eq_zero.mp (Nat.le_zero.mp h)
    subst this
    simp [chunksGo, hop_size]
  | succ n ih =>
    intro buf h
    by_cases hh : hop_size ≤ buf.length
    · have hlen : (buf.drop hop_size).length ≤ n := by
        rw [List.length_drop]
        have : 0 < hop_size := by norm_num [hop_size]
        omega
      simp only [chunksGo, hh, if_true]
      exact ih (buf.drop hop_size) hlen
    · simp only [chunksGo, hh, if_false]
      omega

/-- Unfolding equation for `chunks`. -/
theorem chunks_unfold (buf : List ℚ) :
    chunks buf =
      if hop_size ≤ buf.length then
        ((buf.take hop_size) :: (chunks (buf.drop hop_size)).1,
         (chunks (buf.drop hop_size)).2)
      else ([], buf) := by
  by_cases hh : hop_size ≤ buf.length
  · have hpos : 0 < hop_size := by norm_num [hop_size]
    have h1 : 1 ≤ buf.length := le_trans hpos hh
    obtain ⟨m, hm⟩ : ∃ m, buf.length = m + 1 := ⟨buf.length - 1, by omega⟩
    have hdrop : (buf.drop hop_size).length ≤ m := by
      rw [List.length_drop]
      omega
    rw [if_pos hh, chunks, hm]
    simp only [chunksGo]
    rw [if_pos hh]
    rw [chunksGo_fuel_irrel m (buf.drop hop_size).length
      (buf.drop hop_size) hdrop (le_refl _)]
    rfl
  · rw [if_neg hh, chunks]
    cases hb : buf.length with
    | zero => rfl
    | succ m =>
      simp only [chunksGo]
      rw [if_neg (hb ▸ hh)]

/-- The drain loop is chunking followed by the frame loop; the remainder
becomes the new carry buffer. -/
theorem drainLoop_decomp (fuel : Nat) :
    ∀ s : VadState,
      drainLoop fuel s =
        ({ (processFrames s (chunksGo fuel s.buffer).1).1 with
             buffer := (chunksGo fuel s.buffer).2 },
         (processFrames s (chunksGo fuel s.buffer).1).2) := by
  induction fuel with
  | zero =>
    intro s
    simp [drainLoop, chunksGo, processFrames]
  | succ n ih =>
    intro s
    by_cases hh : hop_size ≤ s.buffer.length
    · simp only [drainLoop, hh, if_true, chunksGo, processFrames]
      rw [processFrame_set_buffer]
      dsimp only
      rw [ih, processFrames_set_buffer]
    · simp [drainLoop, chunksGo, hh, processFrames]

/-- `feed` is: append the input to the carry, split into whole frames plus a
remainder, run the frame loop, and keep the remainder as the new carry. -/
theorem feed_decomp (s : VadState) (input : List ℚ) :
    VadState.feed s input =
      ({ (processFrames s (chunks (s.buffer ++ input)).1).1 with
           buffer := (chunks (s.buffer ++ input)).2 },
       (processFrames s (chunks (s.buffer ++ input)).1).2) := by
  rw [VadState.feed, drainLoop_decomp]
  have hlen : ((s.buffer ++ input).length) ≤ s.buffer.length + input.length := by
    simp [List.length_append]
  rw [show ({ s with buffer := s.buffer ++ input } : VadState).buffer
        = s.buffer ++ input from rfl]
  rw [chunksGo_fuel_irrel (s.buffer.length + input.length)
    ((s.buffer ++ input).length) (s.buffer ++ input) hlen (le_refl _)]
  rw [show chunksGo (s.buffer ++ input).length (s.buffer ++ input)
        = chunks (s.buffer ++ input) from rfl]
  rw [processFrames_set_buffer]

/-- The frame loop distributes over appending frame lists. -/
theorem processFrames_append (xs ys : List (List ℚ)) :
    ∀ s : VadState,
      processFrames s (xs ++ ys) =
        ((processFrames (processFrames s xs).1 ys).1,
         (processFrames s xs).2 ++ (processFrames (processFrames s xs).1 ys).2) := by
  induction xs with
  | nil => intro s; simp [processFrames]
  | cons f rest ih =>
    intro s
    simp only [List.cons_append, processFrames]
    simp only [List.append_eq]
    rw [ih]
    simp [List.append_assoc]

/-- Chunking an appended stream: first chunk `a`, then chunk its remainder
followed by `b`. -/
theorem chunks_append_aux (n : Nat) :
    ∀ a b : List ℚ, a.length ≤ n →
      chunks (a ++ b) =
        ((chunks a).1 ++ (chunks ((chunks a).2 ++ b)).1,
         (chunks ((chunks a).2 ++ b)).2) := by
  induction n with
  | zero =>
    intro a b h
    have : a = [] := List.length_eq_zero.mp (Nat.le_zero.mp h)
    subst this
    simp [chunks, chunksGo]
  | succ n ih =>
    intro a b h
    by_cases hh : hop_size ≤ a.length
    · have hpos : 0 < hop_size := by norm_num [hop_size]
      have hab : hop_size ≤ (a ++ b).length := by
        rw [List.length_append]
        omega
      rw [chunks_unfold (a ++ b), if_pos hab,
        List.take_append_eq_append_take, List.drop_append_eq_append_drop]
      have h0 : hop_size - a.length = 0 := by omega
      rw [h0]
      simp only [List.take_zero, List.append_nil, List.drop_zero]
      have hlen : (a.drop hop_size).length ≤ n := by
        rw [List.length_drop]
        omega
      rw [ih (a.drop hop_size) b hlen]
      rw [chunks_unfold a, if_pos hh]
      simp [List.cons_append]
    · rw [chunks_unfold a, if_neg hh]
      simp

theorem chunks_append (a b : List ℚ) :
    chunks (a ++ b) =
      ((chunks a).1 ++ (chunks ((chunks a).2 ++ b)).1,
       (chunks ((chunks a).2 ++ b)).2) :=
  chunks_append_aux a.length a b (le_refl _)

/-- The carry left by `feed` is the chunking remainder. -/
theorem feed_carry_lt (s : VadState) (input : List ℚ) :
    (VadState.feed s input).1.buffer.length < hop_size := by
  rw [feed_decomp]
  show (chunks (s.buffer ++ input)).2.length < hop_size
  exact chunksGo_remainder_lt (s.buffer ++ input).length (s.buffer ++ input)
    (le_refl _)

/-- C5: `feed` is chunking-invariant — feeding `a` then `b` emits the same
cumulative clip sequence and reaches the same state as feeding `a ++ b` in
one call, and after any `feed` call the carry buffer holds fewer than one
frame (`hop_size = 1024` samples) of unconsumed input. -/
theorem claim_C5_feed_chunking :
    (∀ (s : VadState) (a b : List ℚ),
      VadState.feed s (a ++ b) =
        ((VadState.feed (VadState.feed s a).1 b).1,
         (VadState.feed s a).2 ++ (VadState.feed (VadState.feed s a).1 b).2)) ∧
    (∀ (s : VadState) (input : List ℚ),
      (VadState.feed s input).1.buffer.length < hop_size) := by
  constructor
  · intro s a b
    rw [feed_decomp s (a ++ b), feed_decomp s a, feed_decomp _ b]
    dsimp only
    rw [processFrames_set_buffer]
    dsimp only
    have hassoc : s.buffer ++ (a ++ b) = (s.buffer ++ a) ++ b := by
      rw [List.append_assoc]
    rw [hassoc, chunks_append (s.buffer ++ a) b, processFrames_append]
    dsimp only
    simp [processFrames_set_buffer]
  · exact feed_carry_lt

/-! ### Silence runs and utterance closing -/

/-- A silence run strictly shorter than `silence_chunks_needed` only counts
the frames and appends them to the speech buffer — nothing is emitted and
the engine stays in speech. -/
theorem processFrames_silence_run (fs : List (List ℚ)) :
    ∀ s : VadState, s.in_speech = true →
      (∀ f ∈ fs, isSpeech f = false) →
      s.silence_count + fs.length < silence_chunks_needed →
      processFrames s fs =
        ({ s with silence_count := s.silence_count + fs.length,
                  speech_buffer := s.speech_buffer ++ fs.flatten }, []) := by
  induction fs with
  | nil =>
    intro s hin _ _
    simp [processFrames]
  | cons f rest ih =>
    intro s hin hf hcnt
    have hf0 : isSpeech f = false := hf f (by simp)
    have hstay : s.silence_count + 1 < silence_chunks_needed := by
      simp only [List.length_cons] at hcnt
      omega
    simp only [processFrames]
    rw [processFrame_silence_stay s f hin hf0 hstay]
    dsimp only
    rw [ih _ (by simp [hin]) (fun g hg => hf g (by simp [hg]))
      (by simp only [List.length_cons] at hcnt; simp; omega)]
    simp [List.append_assoc]
    omega

/-- Whatever the accept/discard decision, a silence close resets the engine
to idle with cleared buffer and counters. -/
theorem processFrame_silence_close_state (s : VadState) (c : List ℚ)
    (hin : s.in_speech = true) (hc : isSpeech c = false)
    (hcnt : silence_chunks_needed ≤ s.silence_count + 1) :
    (processFrame s c).1 =
      { s with speech_buffer := [], in_speech := false,
               silence_count := 0, speech_count := 0 } := by
  simp [processFrame, processFrameCore, VadState.core, VadCore.withBuffer,
    hc, hin, hcnt]

/-- C2: while an utterance is in progress, a run of exactly
`silence_chunks_needed` (40) consecutive below-threshold frames terminates
it, whereas 39 below-threshold frames followed by an above-threshold frame
leave the engine inside one continuous utterance: nothing is emitted, the
silence counter resets, and the speech buffer has accumulated the whole
sequence. -/
theorem claim_C2_silence_close_boundary :
    ∀ (s : VadState) (fs : List (List ℚ)) (f40 g : List ℚ),
      s.in_speech = true → s.silence_count = 0 →
      fs.length = 39 → (∀ f ∈ fs, isSpeech f = false) →
      isSpeech f40 = false → isSpeech g = true →
      s.speech_buffer.length + fs.flatten.length + g.length ≤
        maxSamples s.sample_rate →
      (processFrames s fs).2 = [] ∧
      (processFrames s fs).1.in_speech = true ∧
      (processFrame (processFrames s fs).1 f40).1.in_speech = false ∧
      (processFrame (processFrames s fs).1 g).2 = [] ∧
      (processFrame (processFrames s fs).1 g).1.in_speech = true ∧
      (processFrame (processFrames s fs).1 g).1.silence_count = 0 ∧
      (processFrame (processFrames s fs).1 g).1.speech_buffer =
        s.speech_buffer ++ fs.flatten ++ g ∧
      (processFrame (processFrames s fs).1 g).1.speech_count =
        s.speech_count + 1 := by
  intro s fs f40 g hin hsc hlen hf hf40 hg hcap
  have hrun := processFrames_silence_run fs s hin hf
    (by rw [hsc, hlen]; norm_num [silence_chunks_needed])
  rw [hrun]
  refine ⟨rfl, by simp [hin], ?_, ?_⟩
  · rw [processFrame_silence_close_state _ f40 (by simp [hin]) hf40
      (by simp [hsc, hlen]; norm_num [silence_chunks_needed])]
  · have hstay := processFrame_speech_stay
      ({ s with silence_count := s.silence_count + fs.length,
                speech_buffer := s.speech_buffer ++ fs.flatten }) g
      (by simp [hin]) hg
      (by dsimp only
          simp only [List.length_append]
          omega)
    rw [hstay]
    simp [List.append_assoc]

/-- A frame of 1024 zero samples (classified silent). -/
def zeroFrame : List ℚ := List.replicate 1024 0

/-- A frame of 1024 full-scale samples (classified speech). -/
def oneFrame : List ℚ := List.replicate 1024 1

/-- A concrete in-speech state at a 16 kHz session rate. -/
def c2state : VadState :=
  { sample_rate := 16000
    buffer := []
    pre_speech_buffer := []
    speech_buffer := oneFrame
    in_speech := true
    silence_count := 0
    speech_count := 3 }

theorem claim_C2_witness :
    (processFrame (processFrames c2state (List.replicate 39 zeroFrame)).1
        zeroFrame).1.in_speech = false ∧
    (processFrame (processFrames c2state (List.replicate 39 zeroFrame)).1
        oneFrame).1.in_speech = true ∧
    (processFrame (processFrames c2state (List.replicate 39 zeroFrame)).1
        oneFrame).2 = [] := by
  have h := claim_C2_silence_close_boundary c2state
    (List.replicate 39 zeroFrame) zeroFrame oneFrame rfl rfl
    (by simp)
    (by intro f hf
        rw [List.eq_of_mem_replicate hf]
        exact isSpeech_replicate_zero)
    isSpeech_replicate_zero isSpeech_replicate_one
    (by have hb : c2state.speech_buffer.length = 1024 := by
          simp only [c2state]
          exact List.length_replicate 1024 1
        have hfl : (List.replicate 39 zeroFrame).flatten.length = 39936 := by
          rw [List.length_flatten, List.map_replicate]
          rw [show zeroFrame.length = 1024 from List.length_replicate 1024 0]
          exact (by decide : (List.replicate 39 (1024 : Nat)).sum = 39936)
        rw [hb, hfl]
        rw [show oneFrame.length = 1024 from List.length_replicate 1024 1]
        rw [show maxSamples c2state.sample_rate = 480000 from rfl]
        omega)
  exact ⟨h.2.2.1, h.2.2.2.2.1, h.2.2.2.1⟩

/-- C3: an utterance closed by a silence run while holding fewer than
`min_speech_chunks` (5) accumulated speech frames is discarded: no clip is
emitted even though the silence-close condition was met, and the engine
returns to idle with cleared speech buffer and zeroed counters. -/
theorem claim_C3_short_utterance_discarded :
    ∀ (s : VadState) (c : List ℚ),
      s.in_speech = true → isSpeech c = false →
      silence_chunks_needed ≤ s.silence_count + 1 →
      s.speech_count < min_speech_chunks →
      processFrame s c =
        ({ s with speech_buffer := [], in_speech := false,
                  silence_count := 0, speech_count := 0 }, []) :=
  fun s c hin hc hcnt hshort =>
    processFrame_silence_close_discard s c hin hc hcnt hshort

/-- A concrete in-speech state about to silence-close a too-short utterance. -/
def c3state : VadState :=
  { sample_rate := 16000
    buffer := []
    pre_speech_buffer := oneFrame
    speech_buffer := oneFrame
    in_speech := true
    silence_count := 39
    speech_count := 4 }

theorem claim_C3_witness :
    processFrame c3state zeroFrame =
      ({ c3state with speech_buffer := [], in_speech := false,
                      silence_count := 0, speech_count := 0 }, []) :=
  claim_C3_short_utterance_discarded c3state zeroFrame rfl
    isSpeech_replicate_zero
    (by norm_num [c3state, silence_chunks_needed])
    (by norm_num [c3state, min_speech_chunks])

/-! ### The duration cap -/

/-- The in-speech state reached at a 35 Hz session rate after one
above-threshold frame from a fresh engine. -/
def s35sp : VadState :=
  { sample_rate := 35
    buffer := []
    pre_speech_buffer := []
    speech_buffer := oneFrame
    in_speech := true
    silence_count := 0
    speech_count := 1 }

/-- The clip force-emitted at a 35 Hz session rate (cap = 1050 samples) after
two above-threshold frames. -/
def capClip : WavClip :=
  { sample_rate := 35
    channels := 1
    bits_per_sample := 16
    data := (oneFrame ++ oneFrame).map toI16 }

theorem step_onset_35 :
    processFrame (VadState.new 35) oneFrame = (s35sp, []) := by
  rw [processFrame_onset (VadState.new 35) oneFrame rfl isSpeech_replicate_one
    (by rw [List.length_append,
          show (VadState.new 35).pre_speech_buffer.length = 0 from rfl,
          show oneFrame.length = 1024 from List.length_replicate 1024 1,
          show maxSamples (VadState.new 35).sample_rate = 1050 from rfl]
        norm_num)]
  rfl

theorem step_cap_35 :
    processFrame s35sp oneFrame = (VadState.new 35, [capClip]) := by
  rw [processFrame_speech_cap s35sp oneFrame rfl isSpeech_replicate_one
    (by rw [List.length_append,
          show s35sp.speech_buffer.length = 1024 from
            List.length_replicate 1024 1,
          show oneFrame.length = 1024 from List.length_replicate 1024 1,
          show maxSamples s35sp.sample_rate = 1050 from rfl]
        norm_num)
    (by rw [show s35sp.speech_buffer ++ oneFrame = oneFrame ++ oneFrame
          from rfl]
        rw [show oneFrame ++ oneFrame = List.replicate 2048 (1 : ℚ) from by
          rw [oneFrame, ← List.replicate_add]]
        simp only [List.isEmpty_iff]
        intro h
        have := congrArg List.length h
        rw [List.length_replicate] at this
        simp at this)]
  rfl

/-- Two above-threshold frames from a fresh 35 Hz engine force-emit one
clip of 2048 samples and reset the engine. -/
theorem run2_eval :
    processFrames (VadState.new 35) [oneFrame, oneFrame] =
      (VadState.new 35, [capClip]) := by
  simp only [processFrames]
  rw [step_onset_35]
  dsimp only
  rw [step_cap_35]
  simp only [List.nil_append, List.append_nil]

/-- Four above-threshold frames force-emit two clips. -/
theorem run4_eval :
    processFrames (VadState.new 35) [oneFrame, oneFrame, oneFrame, oneFrame] =
      (VadState.new 35, [capClip, capClip]) := by
  simp only [processFrames]
  rw [step_onset_35]
  dsimp only
  rw [step_cap_35]
  dsimp only
  rw [step_onset_35]
  dsimp only
  rw [step_cap_35]
  simp only [List.nil_append, List.append_nil]
  rfl

/-- Chunking a stream that is exactly a sequence of whole frames yields those
frames and an empty remainder. -/
theorem chunks_flatten (fs : List (List ℚ)) :
    (∀ f ∈ fs, f.length = hop_size) → chunks fs.flatten = (fs, []) := by
  induction fs with
  | nil => intro _; rfl
  | cons f rest ih =>
    intro h
    have hf : f.length = hop_size := h f (by simp)
    rw [List.flatten_cons, chunks_unfold]
    rw [if_pos (by rw [List.length_append, hf]; omega)]
    rw [List.take_append_eq_append_take, List.drop_append_eq_append_drop]
    rw [hf, Nat.sub_self, List.take_zero, List.append_nil, List.drop_zero,
      ← hf, List.take_length, List.drop_length, List.nil_append]
    rw [ih (fun g hg => h g (by simp [hg]))]

/-- Feeding a whole number of frames into an engine with an empty carry is
the frame loop on those frames. -/
theorem feed_frames (s : VadState) (fs : List (List ℚ))
    (hs : s.buffer = []) (h : ∀ f ∈ fs, f.length = hop_size) :
    VadState.feed s fs.flatten =
      ({ (processFrames s fs).1 with buffer := [] },
       (processFrames s fs).2) := by
  rw [feed_decomp, hs, List.nil_append, chunks_flatten fs h]

theorem replicate_4096_eq_flatten :
    List.replicate 4096 (1 : ℚ) =
      [oneFrame, oneFrame, oneFrame, oneFrame].flatten := by
  simp only [List.flatten_cons, List.flatten_nil, List.append_nil, oneFrame,
    ← List.replicate_add]

/-- C1 (counterexample): at a session rate of 35 Hz the duration cap is
`maxSamples 35 = 1050` samples.  A continuous above-threshold run of 4096
samples (longer than the cap) is force-split into two emitted segments, but
each emitted segment has 2048 samples — strictly longer than the cap.  This
refutes "each emitted segment is no longer than the cap": the cap branch
fires only once the buffer already exceeds `max_samples`, and emits the
whole buffer. -/
theorem claim_C1_counterexample :
    maxSamples 35 = 1050 ∧
    ((VadState.feed (VadState.new 35) (List.replicate 4096 (1 : ℚ))).2.map
      (fun clip => clip.data.length)) = [2048, 2048] ∧
    ¬ (2048 ≤ maxSamples 35) := by
  refine ⟨rfl, ?_, by norm_num [maxSamples]⟩
  rw [replicate_4096_eq_flatten,
    feed_frames (VadState.new 35) _ rfl
      (by intro f hf
          have : f = oneFrame := by
            simpa using hf
          rw [this, oneFrame]
          exact List.length_replicate 1024 1)]
  rw [run4_eval]
  show [capClip.data.length, capClip.data.length] = [2048, 2048]
  rw [show capClip.data.length = 2048 from ?_]
  rw [capClip]
  show ((oneFrame ++ oneFrame).map toI16).length = 2048
  rw [List.length_map, List.length_append,
    show oneFrame.length = 1024 from List.length_replicate 1024 1]

/-- C1 (amended): along a continuous run of above-threshold frames, every
clip the engine emits is force-emitted by the duration cap, and its length
lies strictly above the cap and at most one frame (`hop_size`) above it —
the run is split into multiple segments, each *longer* than the cap by up to
one frame, rather than "no longer than the cap".  The hypotheses ask that
the engine not already be beyond the cap and that the pre-speech seed plus
one frame fit under the cap (true of every realistic sample rate). -/
theorem claim_C1_amended_force_split :
    (∀ (frames : List (List ℚ)) (s : VadState),
      (s.in_speech = true →
        s.speech_buffer.length ≤ maxSamples s.sample_rate) →
      s.pre_speech_buffer.length + hop_size ≤ maxSamples s.sample_rate →
      (∀ f ∈ frames, f.length = hop_size ∧ isSpeech f = true) →
      ∀ clip ∈ (processFrames s frames).2,
        maxSamples s.sample_rate < clip.data.length ∧
        clip.data.length ≤ maxSamples s.sample_rate + hop_size) ∧
    ((VadState.feed (VadState.new 35) (List.replicate 4096 (1 : ℚ))).2).length
      = 2 := by
  constructor
  · intro frames
    induction frames with
    | nil =>
      intro s _ _ _ clip hclip
      simp [processFrames] at hclip
    | cons f rest ih =>
      intro s hbuf hpre hf clip hclip
      obtain ⟨hflen, hfsp⟩ := hf f (by simp)
      have hrest : ∀ g ∈ rest, g.length = hop_size ∧ isSpeech g = true :=
        fun g hg => hf g (by simp [hg])
      simp only [processFrames] at hclip
      by_cases hin : s.in_speech = true
      · by_cases hcap :
            (s.speech_buffer ++ f).length > maxSamples s.sample_rate
        · have hne : ¬ (s.speech_buffer ++ f).isEmpty := by
            rw [List.isEmpty_iff]
            intro h0
            have h1 := congrArg List.length h0
            rw [List.length_append, hflen] at h1
            simp [hop_size] at h1
          rw [processFrame_speech_cap s f hin hfsp hcap hne] at hclip
          dsimp only at hclip
          rcases List.mem_append.mp hclip with hl | hr
          · have hclip' : clip =
                { sample_rate := s.sample_rate, channels := 1,
                  bits_per_sample := 16,
                  data := (s.speech_buffer ++ f).map toI16 } := by
              simpa using hl
            subst hclip'
            have hd : ((s.speech_buffer ++ f).map toI16).length =
                s.speech_buffer.length + hop_size := by
              rw [List.length_map, List.length_append, hflen]
            constructor
            · show maxSamples s.sample_rate <
                ((s.speech_buffer ++ f).map toI16).length
              rw [hd]
              rw [List.length_append, hflen] at hcap
              exact hcap
            · show ((s.speech_buffer ++ f).map toI16).length ≤
                maxSamples s.sample_rate + hop_size
              rw [hd]
              have := hbuf hin
              omega
          · exact ih
              ({ s with speech_buffer := [], in_speech := false,
                        silence_count := 0, speech_count := 0 })
              (by intro h; simp at h) hpre hrest clip hr
        · rw [processFrame_speech_stay s f hin hfsp hcap] at hclip
          dsimp only at hclip
          rw [List.nil_append] at hclip
          refine ih
            ({ s with in_speech := true,
                      speech_count := s.speech_count + 1,
                      speech_buffer := s.speech_buffer ++ f,
                      silence_count := 0 })
            ?_ hpre hrest clip hclip
          intro _
          show (s.speech_buffer ++ f).length ≤ maxSamples s.sample_rate
          omega
      · have hin' : s.in_speech = false := by
          simpa using hin
        have hnocap : ¬ (s.pre_speech_buffer ++ f).length >
            maxSamples s.sample_rate := by
          rw [List.length_append, hflen]
          omega
        rw [processFrame_onset s f hin' hfsp hnocap] at hclip
        dsimp only at hclip
        rw [List.nil_append] at hclip
        refine ih
          ({ s with in_speech := true, speech_count := 1,
                    speech_buffer := s.pre_speech_buffer ++ f,
                    silence_count := 0 })
          ?_ hpre hrest clip hclip
        intro _
        show (s.pre_speech_buffer ++ f).length ≤ maxSamples s.sample_rate
        rw [List.length_append, hflen]
        omega
  · rw [replicate_4096_eq_flatten,
      feed_frames (VadState.new 35) _ rfl
        (by intro f hf
            have hfo : f = oneFrame := by simpa using hf
            rw [hfo, oneFrame]
            exact List.length_replicate 1024 1)]
    rw [run4_eval]
    rfl

theorem claim_C1_witness :
    maxSamples (VadState.new 35).sample_rate < capClip.data.length ∧
    capClip.data.length ≤ maxSamples (VadState.new 35).sample_rate + hop_size :=
  claim_C1_amended_force_split.1 [oneFrame, oneFrame] (VadState.new 35)
    (by intro h; simp [VadState.new] at h)
    (by rw [show (VadState.new 35).pre_speech_buffer.length = 0 from rfl,
          show maxSamples (VadState.new 35).sample_rate = 1050 from rfl]
        norm_num [hop_size])
    (by intro f hf
        have hfo : f = oneFrame := by simpa using hf
        subst hfo
        exact ⟨List.length_replicate 1024 1, isSpeech_replicate_one⟩)
    capClip
    (by rw [run2_eval]; simp)

/-! ### The pre-speech seed and the stale lead-in after a force-split -/

/-- A frame of 1024 half-scale samples (classified speech via the peak
threshold). -/
def halfFrame : List ℚ := List.replicate 1024 (1 / 2)

theorem isSpeech_replicate_half : isSpeech halfFrame = true := by
  rw [halfFrame, isSpeech, frameStats_replicate]
  norm_num [rms_threshold, peak_threshold]

theorem toI16_zero : toI16 0 = 0 := by norm_num [toI16, clampUnit]

theorem toI16_one : toI16 1 = 32767 := by norm_num [toI16, clampUnit]

theorem toI16_half : toI16 (1 / 2) = 16383 := by norm_num [toI16, clampUnit]

/-- The idle state at 35 Hz whose pre-speech rolling buffer holds one silent
frame. -/
def s35pre : VadState :=
  { sample_rate := 35
    buffer := []
    pre_speech_buffer := zeroFrame
    speech_buffer := []
    in_speech := false
    silence_count := 0
    speech_count := 0 }

/-- Clip force-emitted at onset from `s35pre` on a frame of ones. -/
def mixClip1 : WavClip :=
  { sample_rate := 35
    channels := 1
    bits_per_sample := 16
    data := (zeroFrame ++ oneFrame).map toI16 }

/-- Clip force-emitted at onset from `s35pre` on a frame of halves. -/
def mixClip2 : WavClip :=
  { sample_rate := 35
    channels := 1
    bits_per_sample := 16
    data := (zeroFrame ++ halfFrame).map toI16 }

theorem step_idle_35 :
    processFrame (VadState.new 35) zeroFrame = (s35pre, []) := by
  rw [processFrame_idle_small (VadState.new 35) zeroFrame rfl
    isSpeech_replicate_zero
    (by rw [List.length_append,
          show (VadState.new 35).pre_speech_buffer.length = 0 from rfl,
          show zeroFrame.length = 1024 from List.length_replicate 1024 0,
          show pre_speech_samples = 10240 from rfl]
        norm_num)]
  rfl

theorem step_onsetcap_one :
    processFrame s35pre oneFrame = (s35pre, [mixClip1]) := by
  rw [processFrame_onset_cap s35pre oneFrame rfl isSpeech_replicate_one
    (by rw [List.length_append,
          show s35pre.pre_speech_buffer.length = 1024 from
            List.length_replicate 1024 0,
          show oneFrame.length = 1024 from List.length_replicate 1024 1,
          show maxSamples s35pre.sample_rate = 1050 from rfl]
        norm_num)
    (by rw [List.isEmpty_eq_true]
        intro h0
        have h1 := congrArg List.length h0
        rw [List.length_append,
          show oneFrame.length = 1024 from List.length_replicate 1024 1]
          at h1
        simp at h1)]
  rfl

theorem step_onsetcap_half :
    processFrame s35pre halfFrame = (s35pre, [mixClip2]) := by
  rw [processFrame_onset_cap s35pre halfFrame rfl isSpeech_replicate_half
    (by rw [List.length_append,
          show s35pre.pre_speech_buffer.length = 1024 from
            List.length_replicate 1024 0,
          show halfFrame.length = 1024 from List.length_replicate 1024 _,
          show maxSamples s35pre.sample_rate = 1050 from rfl]
        norm_num)
    (by rw [List.isEmpty_eq_true]
        intro h0
        have h1 := congrArg List.length h0
        rw [List.length_append,
          show halfFrame.length = 1024 from List.length_replicate 1024 _]
          at h1
        simp at h1)]
  rfl

/-- A silent frame, a ones frame and a halves frame from a fresh 35 Hz
engine: both speech frames are force-emitted as separate segments, and both
segments are seeded with the (stale) pre-speech buffer holding frame 1. -/
theorem runC4_eval :
    processFrames (VadState.new 35) [zeroFrame, oneFrame, halfFrame] =
      (s35pre, [mixClip1, mixClip2]) := by
  simp only [processFrames]
  rw [step_idle_35]
  dsimp only
  rw [step_onsetcap_one]
  dsimp only
  rw [step_onsetcap_half]
  simp only [List.nil_append, List.append_nil]
  rfl

/-- C4 (counterexample): feed a fresh 35 Hz engine one silent frame, one
frame of ones and one frame of halves.  Two segments are emitted (both by
the duration cap).  The second segment's utterance starts at the third
frame; the 1024 samples immediately preceding it are the ones frame
(encoding to 32767), which is available, yet the second segment begins with
the encoding of the *first* frame (zeros) — the pre-speech rolling buffer is
never updated during speech, so after a force-split the next segment's
lead-in is stale rather than the immediately preceding audio. -/
theorem claim_C4_counterexample :
    ((VadState.feed (VadState.new 35)
        [zeroFrame, oneFrame, halfFrame].flatten).2.map
      (fun clip => clip.data.take hop_size)) =
      [List.replicate 1024 (0 : ℤ), List.replicate 1024 (0 : ℤ)] ∧
    ([zeroFrame, oneFrame, halfFrame].flatten.drop hop_size).take hop_size =
      oneFrame ∧
    oneFrame.map toI16 = List.replicate 1024 (32767 : ℤ) ∧
    (List.replicate 1024 (0 : ℤ) : List ℤ) ≠
      List.replicate 1024 (32767 : ℤ) := by
  have hzlen : zeroFrame.length = 1024 := List.length_replicate 1024 0
  have holen : oneFrame.length = 1024 := List.length_replicate 1024 1
  have hhlen : halfFrame.length = 1024 := List.length_replicate 1024 _
  have htake : ∀ tail : List ℚ,
      ((zeroFrame ++ tail).map toI16).take hop_size =
        List.replicate 1024 (0 : ℤ) := by
    intro tail
    rw [List.map_append, List.take_append_eq_append_take, List.length_map,
      hzlen, show hop_size - 1024 = 0 from rfl, List.take_zero,
      List.append_nil, ← List.map_take,
      show hop_size = 1024 from rfl, zeroFrame, List.take_replicate,
      show min 1024 1024 = 1024 from rfl, List.map_replicate, toI16_zero]
  refine ⟨?_, ?_, ?_, ?_⟩
  · rw [feed_frames (VadState.new 35) _ rfl
      (by intro f hf
          simp only [List.mem_cons, List.not_mem_nil, or_false] at hf
          rcases hf with h | h | h <;> rw [h]
          · exact hzlen
          · exact holen
          · exact hhlen)]
    rw [runC4_eval]
    show [mixClip1.data.take hop_size, mixClip2.data.take hop_size] = _
    rw [show mixClip1.data = (zeroFrame ++ oneFrame).map toI16 from rfl,
      show mixClip2.data = (zeroFrame ++ halfFrame).map toI16 from rfl,
      htake oneFrame, htake halfFrame]
  · simp only [List.flatten_cons, List.flatten_nil, List.append_nil]
    rw [List.drop_append_eq_append_drop, hzlen,
      show hop_size - 1024 = 0 from rfl, List.drop_zero,
      show zeroFrame.drop hop_size = [] from by
        rw [zeroFrame, show hop_size = 1024 from rfl, List.drop_replicate]
        rfl,
      List.nil_append,
      List.take_append_eq_append_take, holen,
      show hop_size - 1024 = 0 from rfl, List.take_zero, List.append_nil,
      show oneFrame.take hop_size = oneFrame from by
        rw [oneFrame, show hop_size = 1024 from rfl, List.take_replicate]
        rfl]
  · rw [oneFrame, List.map_replicate, toI16_one]
  · intro h
    rw [show (List.replicate 1024 (0 : ℤ)) =
          0 :: List.replicate 1023 0 from rfl,
      show (List.replicate 1024 (32767 : ℤ)) =
          32767 :: List.replicate 1023 32767 from rfl] at h
    injection h with h1 _
    exact absurd h1 (by decide)

/-- C4 (amended): every utterance's segment begins with the content of the
pre-speech rolling buffer *as of that utterance's onset* (up to
`pre_speech_samples` of the most recent idle audio), not necessarily the
audio immediately preceding the onset: (i) at onset the speech buffer (or
the immediately force-emitted clip) is seeded with exactly the rolling
buffer followed by the onset frame; (ii) once the seed is a prefix of the
speech buffer it remains a prefix of the buffer and of every clip emitted
for that utterance — the silence trim and the cap emission never eat into
it. -/
theorem claim_C4_amended_seed :
    (∀ (s : VadState) (c : List ℚ), s.in_speech = false → isSpeech c = true →
      ((processFrame s c).1.in_speech = true →
        (processFrame s c).1.speech_buffer = s.pre_speech_buffer ++ c) ∧
      (∀ clip ∈ (processFrame s c).2,
        clip.data = (s.pre_speech_buffer ++ c).map toI16)) ∧
    (∀ (s : VadState) (c p : List ℚ),
      s.in_speech = true → c.length = hop_size →
      s.speech_buffer.take p.length = p →
      p.length + s.silence_count * hop_size ≤ s.speech_buffer.length →
      (∀ clip ∈ (processFrame s c).2,
        clip.data.take p.length = p.map toI16) ∧
      ((processFrame s c).1.in_speech = true →
        (processFrame s c).1.speech_buffer.take p.length = p ∧
        p.length + (processFrame s c).1.silence_count * hop_size ≤
          (processFrame s c).1.speech_buffer.length)) := by
  constructor
  · intro s c hin hc
    by_cases hcap : (s.pre_speech_buffer ++ c).length > maxSamples s.sample_rate
    · have hpos : 0 < (s.pre_speech_buffer ++ c).length :=
        lt_of_le_of_lt (Nat.zero_le _) hcap
      have hne : ¬ (s.pre_speech_buffer ++ c).isEmpty := by
        rw [List.isEmpty_eq_true]
        intro h0
        rw [h0] at hpos
        simp at hpos
      rw [processFrame_onset_cap s c hin hc hcap hne]
      constructor
      · intro h
        simp at h
      · intro clip hclip
        have hclip' : clip =
            { sample_rate := s.sample_rate, channels := 1,
              bits_per_sample := 16,
              data := (s.pre_speech_buffer ++ c).map toI16 } := by
          simpa using hclip
        rw [hclip']
    · rw [processFrame_onset s c hin hc hcap]
      constructor
      · intro _
        rfl
      · intro clip hclip
        simp at hclip
  · intro s c p hin hclen htake hlen
    have h1024 : hop_size = 1024 := rfl
    have hple : p.length ≤ s.speech_buffer.length := by
      rw [h1024] at hlen
      omega
    have htake_app : (s.speech_buffer ++ c).take p.length = p := by
      rw [List.take_append_eq_append_take,
        show p.length - s.speech_buffer.length = 0 from by omega,
        List.take_zero, List.append_nil, htake]
    by_cases hcsp : isSpeech c = true
    · by_cases hcap : (s.speech_buffer ++ c).length > maxSamples s.sample_rate
      · have hpos : 0 < (s.speech_buffer ++ c).length :=
          lt_of_le_of_lt (Nat.zero_le _) hcap
        have hne : ¬ (s.speech_buffer ++ c).isEmpty := by
          rw [List.isEmpty_eq_true]
          intro h0
          rw [h0] at hpos
          simp at hpos
        rw [processFrame_speech_cap s c hin hcsp hcap hne]
        constructor
        · intro clip hclip
          have hclip' : clip =
              { sample_rate := s.sample_rate, channels := 1,
                bits_per_sample := 16,
                data := (s.speech_buffer ++ c).map toI16 } := by
            simpa using hclip
          rw [hclip']
          show ((s.speech_buffer ++ c).map toI16).take p.length = p.map toI16
          rw [← List.map_take, htake_app]
        · intro h
          simp at h
      · rw [processFrame_speech_stay s c hin hcsp hcap]
        constructor
        · intro clip hclip
          simp at hclip
        · intro _
          refine ⟨htake_app, ?_⟩
          show p.length + 0 * hop_size ≤ (s.speech_buffer ++ c).length
          rw [List.length_append]
          omega
    · have hcs : isSpeech c = false := by
        simpa using hcsp
      by_cases hclose : silence_chunks_needed ≤ s.silence_count + 1
      · by_cases hlong : min_speech_chunks ≤ s.speech_count
        · have hne : ¬ (s.speech_buffer ++ c).isEmpty := by
            rw [List.isEmpty_eq_true]
            intro h0
            have h1 := congrArg List.length h0
            rw [List.length_append, hclen] at h1
            simp [hop_size] at h1
          rw [processFrame_silence_close_emit s c hin hcs hclose hlong hne]
          constructor
          · intro clip hclip
            have hclip' : clip =
                { sample_rate := s.sample_rate, channels := 1,
                  bits_per_sample := 16,
                  data :=
                    (if (s.speech_buffer ++ c).length >
                          (s.silence_count + 1) * hop_size -
                            s.sample_rate * 15 / 100
                     then (s.speech_buffer ++ c).take
                        ((s.speech_buffer ++ c).length -
                          ((s.silence_count + 1) * hop_size -
                            s.sample_rate * 15 / 100))
                     else s.speech_buffer ++ c).map toI16 } := by
              simpa using hclip
            rw [hclip']
            show ((if (s.speech_buffer ++ c).length >
                      (s.silence_count + 1) * hop_size -
                        s.sample_rate * 15 / 100
                   then (s.speech_buffer ++ c).take
                      ((s.speech_buffer ++ c).length -
                        ((s.silence_count + 1) * hop_size -
                          s.sample_rate * 15 / 100))
                   else s.speech_buffer ++ c).map toI16).take p.length =
                p.map toI16
            rw [← List.map_take]
            by_cases htrim : (s.speech_buffer ++ c).length >
                (s.silence_count + 1) * hop_size - s.sample_rate * 15 / 100
            · rw [if_pos htrim, List.take_take]
              have hK : p.length ≤ (s.speech_buffer ++ c).length -
                  ((s.silence_count + 1) * hop_size -
                    s.sample_rate * 15 / 100) := by
                rw [List.length_append, hclen]
                rw [h1024] at hlen ⊢
                omega
              rw [min_eq_left hK, htake_app]
            · rw [if_neg htrim, htake_app]
          · intro h
            simp at h
        · rw [processFrame_silence_close_discard s c hin hcs hclose
            (by omega)]
          constructor
          · intro clip hclip
            simp at hclip
          · intro h
            simp at h
      · have hstay : s.silence_count + 1 < silence_chunks_needed := by
          omega
        rw [processFrame_silence_stay s c hin hcs hstay]
        constructor
        · intro clip hclip
          simp at hclip
        · intro _
          refine ⟨htake_app, ?_⟩
          show p.length + (s.silence_count + 1) * hop_size ≤
            (s.speech_buffer ++ c).length
          rw [List.length_append, hclen]
          rw [h1024] at hlen ⊢
          omega

theorem claim_C4_witness :
    ((processFrame c2state oneFrame).1.in_speech = true →
      (processFrame c2state oneFrame).1.speech_buffer.take
        (List.replicate 4 (1 : ℚ)).length = List.replicate 4 (1 : ℚ) ∧
      (List.replicate 4 (1 : ℚ)).length +
        (processFrame c2state oneFrame).1.silence_count * hop_size ≤
        (processFrame c2state oneFrame).1.speech_buffer.length) ∧
    ((processFrame s35pre oneFrame).1.in_speech = true →
      (processFrame s35pre oneFrame).1.speech_buffer =
        s35pre.pre_speech_buffer ++ oneFrame) := by
  constructor
  · exact (claim_C4_amended_seed.2 c2state oneFrame (List.replicate 4 1)
      rfl (List.length_replicate 1024 1)
      (by rw [show c2state.speech_buffer = List.replicate 1024 (1 : ℚ)
            from rfl, List.take_replicate, List.length_replicate]
          rfl)
      (by rw [List.length_replicate,
            show c2state.speech_buffer.length = 1024 from
              List.length_replicate 1024 1,
            show c2state.silence_count = 0 from rfl]
          norm_num)).2
  · exact (claim_C4_amended_seed.1 s35pre oneFrame rfl
      isSpeech_replicate_one).1

/-! ### Encoder errors and their handling inside `feed` -/

theorem samples_to_wav_b64_ok_ne_nil {r : Nat} {l : List ℚ} {clip : WavClip}
    (h : samples_to_wav_b64 r l = Except.ok clip) : l ≠ [] := by
  intro h0
  subst h0
  simp [samples_to_wav_b64] at h

/-- Every clip pushed by the frame body is a successful encoding of some
nonempty buffer at the engine's sample rate (`if let Ok(b64) = ... { ... }`). -/
theorem processFrameCore_clips_ok (t : VadCore) (c : List ℚ) :
    ∀ clip ∈ (processFrameCore t c).2, ∃ buf : List ℚ, buf ≠ [] ∧
      samples_to_wav_b64 t.sample_rate buf = Except.ok clip := by
  intro clip hclip
  unfold processFrameCore at hclip
  dsimp only at hclip
  repeat' split at hclip
  all_goals
    first
    | (rename_i heq
       simp at hclip
       subst hclip
       exact ⟨_, samples_to_wav_b64_ok_ne_nil heq, heq⟩)
    | simp at hclip

theorem processFrame_clips_ok (s : VadState) (c : List ℚ) :
    ∀ clip ∈ (processFrame s c).2, ∃ buf : List ℚ, buf ≠ [] ∧
      samples_to_wav_b64 s.sample_rate buf = Except.ok clip :=
  processFrameCore_clips_ok s.core c

theorem processFrames_clips_ok (frames : List (List ℚ)) :
    ∀ (s : VadState), ∀ clip ∈ (processFrames s frames).2,
      ∃ buf : List ℚ, buf ≠ [] ∧
        samples_to_wav_b64 s.sample_rate buf = Except.ok clip := by
  induction frames with
  | nil =>
    intro s clip hclip
    simp [processFrames] at hclip
  | cons f rest ih =>
    intro s clip hclip
    simp only [processFrames] at hclip
    rcases List.mem_append.mp hclip with hl | hr
    · exact processFrame_clips_ok s f clip hl
    · have h := ih (processFrame s f).1 clip hr
      rwa [processFrame_sample_rate] at h

/-- C6: the encoder fails with the empty-input error exactly on zero
samples, and `feed` never propagates an encoding failure: every clip in its
output is the successful encoding of some nonempty buffer at the session
sample rate (failed encodings are dropped, and `feed`'s return type carries
no error). -/
theorem claim_C6_encoder_errors :
    (∀ (sr : Nat) (samples : List ℚ),
      samples_to_wav_b64 sr samples = Except.error "Empty audio buffer" ↔
        samples = []) ∧
    (∀ (s : VadState) (input : List ℚ),
      ∀ clip ∈ (VadState.feed s input).2,
        ∃ buf : List ℚ, buf ≠ [] ∧
          samples_to_wav_b64 s.sample_rate buf = Except.ok clip) := by
  constructor
  · intro sr samples
    constructor
    · intro h
      by_contra h0
      simp [samples_to_wav_b64, h0] at h
    · intro h
      subst h
      rfl
  · intro s input clip hclip
    rw [feed_decomp] at hclip
    exact processFrames_clips_ok _ s clip hclip

theorem claim_C6_witness :
    samples_to_wav_b64 8000 ([] : List ℚ) =
      Except.error "Empty audio buffer" ∧
    ∃ buf : List ℚ, buf ≠ [] ∧
      samples_to_wav_b64 (VadState.new 35).sample_rate buf =
        Except.ok capClip := by
  constructor
  · exact (claim_C6_encoder_errors.1 8000 []).mpr rfl
  · exact claim_C6_encoder_errors.2 (VadState.new 35)
      [oneFrame, oneFrame].flatten capClip
      (by rw [feed_frames (VadState.new 35) _ rfl
            (by intro f hf
                have hfo : f = oneFrame := by simpa using hf
                rw [hfo, oneFrame]
                exact List.length_replicate 1024 1)]
          rw [run2_eval]
          simp)

/-! ### The 16-bit scaling -/

theorem clampUnit_mem (x : ℚ) : -1 ≤ clampUnit x ∧ clampUnit x ≤ 1 := by
  unfold clampUnit
  split_ifs with h1 h2
  · norm_num
  · norm_num
  · push_neg at h1 h2
    exact ⟨h1, h2⟩

theorem clampUnit_id (x : ℚ) (hl : -1 ≤ x) (hu : x ≤ 1) : clampUnit x = x := by
  unfold clampUnit
  split_ifs with h1 h2
  · linarith
  · linarith
  · rfl

/-- C7 (counterexample): the sample `1/2` is already inside `[-1, 1]`, so it
is scaled to `16383.5`, but the written 16-bit word is the truncation
`16383` — not equal to the clamped sample times the scale factor. -/
theorem claim_C7_counterexample :
    samples_to_wav_b64 8000 [1 / 2] =
      Except.ok { sample_rate := 8000, channels := 1, bits_per_sample := 16,
                  data := [16383] } ∧
    ((16383 : ℤ) : ℚ) ≠ clampUnit (1 / 2) * 32767 := by
  constructor
  · unfold samples_to_wav_b64
    rw [if_neg (by simp)]
    rw [show ([(1 : ℚ) / 2]).map toI16 = [16383] from by
      rw [List.map_cons, List.map_nil, toI16_half]]
  · norm_num [clampUnit]

/-- C7 (amended): the encoder writes, for each input sample, the clamp of
the sample to `[-1, 1]` scaled by `i16::MAX = 32767` and then truncated
toward zero to an integer: the written word always fits the 16-bit signed
range, is within one unit of the exact product, and the clamp is the
identity on in-range samples. -/
theorem claim_C7_amended_scaling :
    ∀ (sr : Nat) (samples : List ℚ), samples ≠ [] →
      samples_to_wav_b64 sr samples =
        Except.ok { sample_rate := sr, channels := 1, bits_per_sample := 16,
                    data := samples.map toI16 } ∧
      ∀ x ∈ samples,
        (-1 ≤ clampUnit x ∧ clampUnit x ≤ 1) ∧
        (-1 ≤ x → x ≤ 1 → clampUnit x = x) ∧
        (-32767 ≤ toI16 x ∧ toI16 x ≤ 32767) ∧
        |(toI16 x : ℚ) - clampUnit x * 32767| < 1 := by
  intro sr samples hne
  constructor
  · simp [samples_to_wav_b64, hne]
  · intro x _
    obtain ⟨hcl, hcu⟩ := clampUnit_mem x
    have hql : (-32767 : ℚ) ≤ clampUnit x * 32767 := by nlinarith
    have hqu : clampUnit x * 32767 ≤ 32767 := by nlinarith
    refine ⟨⟨hcl, hcu⟩, clampUnit_id x, ?_, ?_⟩
    · unfold toI16
      dsimp only
      split_ifs with hq
      · constructor
        · have h0 : (0 : ℤ) ≤ ⌊clampUnit x * 32767⌋ :=
            Int.floor_nonneg.mpr hq
          omega
        · have h1 : (⌊clampUnit x * 32767⌋ : ℚ) ≤ 32767 :=
            le_trans (Int.floor_le _) hqu
          exact_mod_cast h1
      · constructor
        · have h1 : (-32767 : ℚ) ≤ (⌈clampUnit x * 32767⌉ : ℚ) :=
            le_trans hql (Int.le_ceil _)
          exact_mod_cast h1
        · have h0 : ⌈clampUnit x * 32767⌉ ≤ 0 :=
            Int.ceil_le.mpr (by push_cast; linarith [not_le.mp hq])
          omega
    · unfold toI16
      dsimp only
      split_ifs with hq
      · rw [abs_sub_lt_iff]
        constructor
        · linarith [Int.floor_le (clampUnit x * 32767)]
        · linarith [Int.sub_one_lt_floor (clampUnit x * 32767)]
      · rw [abs_sub_lt_iff]
        constructor
        · linarith [Int.ceil_lt_add_one (clampUnit x * 32767)]
        · linarith [Int.le_ceil (clampUnit x * 32767)]

theorem claim_C7_witness :
    samples_to_wav_b64 8000 [(1 : ℚ) / 2, 1] =
      Except.ok { sample_rate := 8000, channels := 1, bits_per_sample := 16,
                  data := [(1 : ℚ) / 2, 1].map toI16 } ∧
    (-32767 ≤ toI16 (1 / 2) ∧ toI16 (1 / 2) ≤ 32767) ∧
    |(toI16 ((1 : ℚ) / 2) : ℚ) - clampUnit (1 / 2) * 32767| < 1 := by
  have h := claim_C7_amended_scaling 8000 [(1 : ℚ) / 2, 1] (by simp)
  refine ⟨h.1, ?_, ?_⟩
  · exact (h.2 (1 / 2) (by simp)).2.2.1
  · exact (h.2 (1 / 2) (by simp)).2.2.2

/-! ### Capture-session lifecycle (`MicState`, `start_mic_capture`,
`stop_mic_capture`, `is_mic_capturing`, `run_mic_capture_thread`)

The cpal host is modelled as an oracle fixing the outcome of every external
call the controller makes: device enumeration, the default device, each
device's default input configuration, and the build/play outcomes of its
input stream.  Event emission (`app.emit`) is fire-and-forget and carries no
state, so it is not modelled. -/

/-- Sample formats the stream builder matches on. -/
inductive SampleFormat where
  | f32
  | i16
  | u16
  | other
  deriving DecidableEq

/-- A device's default input configuration. -/
structure StreamCfg where
  sample_rate : Nat
  channels : Nat
  sample_format : SampleFormat
  deriving DecidableEq

/-- One input device, together with the outcomes of the external calls made
on it. -/
structure Device where
  name : String
  default_input_config : Except String StreamCfg
  build_result : Except String Unit
  play_result : Except String Unit

/-- The cpal host: `input_devices()` (which can itself fail, modelled as
`none`) and `default_input_device()`. -/
structure Host where
  input_devices : Option (List Device)
  default_input_device : Option Device

/-- The shared flags of `MicState` (the thread handle is represented in the
interleaving model below, not here). -/
structure MicState where
  is_capturing : Bool
  stop_flag : Bool
  deriving DecidableEq

/-- `find_device`: a named non-"default" device is looked up among the input
devices; on any miss the default input device is used; no default at all is
the `NoDeviceAvailable` error. -/
def find_device (host : Host) (device_name : Option String) :
    Except String Device :=
  let fallback : Except String Device :=
    match host.default_input_device with
    | some d => .ok d
    | none => .error "No input device available"
  match device_name with
  | some name =>
    if name ≠ "default" then
      match host.input_devices with
      | some devs =>
        match devs.find? (fun d => d.name = name) with
        | some d => .ok d
        | none => fallback
      | none => fallback
    else fallback
  | none => fallback

/-- `start_mic_capture`: rejects a double start, probes the device and its
configuration on the caller's context (surfacing those errors), then sets
the flags and spawns the worker, returning the probed sample rate.  The
spawned worker itself is `run_mic_capture_thread` below. -/
def start_mic_capture (host : Host) (s : MicState)
    (device_name : Option String) : Except String Nat × MicState :=
  if s.is_capturing then (.error "Mic capture already running", s)
  else
    match find_device host device_name with
    | .error e => (.error e, s)
    | .ok device =>
      match device.default_input_config with
      | .error e => (.error ("Failed to get input config: " ++ e), s)
      | .ok config =>
        (.ok config.sample_rate,
         { s with stop_flag := false, is_capturing := true })

/-- `stop_mic_capture`: set the cancellation signal and clear the capturing
flag (the join is captured by the interleaving model below). -/
def stop_mic_capture (s : MicState) : MicState :=
  { s with stop_flag := true, is_capturing := false }

/-- `is_mic_capturing`. -/
def is_mic_capturing (s : MicState) : Bool :=
  s.is_capturing

/-- How the dedicated worker thread can end. -/
inductive WorkerExit where
  | deviceError
  | configError
  | unsupportedFormat
  | buildError
  | playError
  | ranUntilStop
  deriving DecidableEq

/-- `run_mic_capture_thread`: re-resolves the device, queries its
configuration, matches the sample format, builds and plays the stream; on
any failure it logs and returns (`WorkerExit` records which arm), otherwise
it polls `stop_flag` until cancellation and drops the stream.  It only ever
*reads* the shared state; the returned `MicState` is the input state,
reflecting that no arm of the source function writes either flag. -/
def run_mic_capture_thread (host : Host) (device_name : Option String)
    (s : MicState) : WorkerExit × MicState :=
  match find_device host device_name with
  | .error _ => (.deviceError, s)
  | .ok device =>
    match device.default_input_config with
    | .error _ => (.configError, s)
    | .ok config =>
      match config.sample_format with
      | .other => (.unsupportedFormat, s)
      | _ =>
        match device.build_result with
        | .error _ => (.buildError, s)
        | .ok _ =>
          match device.play_result with
          | .error _ => (.playError, s)
          | .ok _ => (.ranUntilStop, s)

/-- A device whose configuration probe succeeds but whose input stream
cannot be built. -/
def devBuildFail : Device :=
  { name := "Mic"
    default_input_config :=
      .ok { sample_rate := 48000, channels := 1, sample_format := .f32 }
    build_result := .error "stream build failed"
    play_result := .ok () }

/-- A host whose default device is `devBuildFail`. -/
def hostBuildFail : Host :=
  { input_devices := some [devBuildFail]
    default_input_device := some devBuildFail }

/-- A host with no input device at all. -/
def hostNoDev : Host :=
  { input_devices := some []
    default_input_device := none }

/-- C8 (counterexample): on a host whose (default) device probes fine but
whose stream cannot be built, `start_mic_capture` still returns
`Ok(48000)`; the stream-construction error occurs on the spawned worker
thread, which only logs it (`WorkerExit.buildError`) — it is never surfaced
as the result of the start request. -/
theorem claim_C8_counterexample :
    (start_mic_capture hostBuildFail ⟨false, false⟩ none).1 =
      Except.ok 48000 ∧
    (run_mic_capture_thread hostBuildFail none
      (start_mic_capture hostBuildFail ⟨false, false⟩ none).2).1 =
      WorkerExit.buildError := by
  constructor <;> rfl

/-- C8 (amended): device-resolution and configuration-query errors are
surfaced synchronously as the error result of `start_mic_capture` (they are
probed on the caller's context), but stream construction and stream start
happen on the dedicated worker thread: once the probe succeeds, `start`
returns the probed sample rate regardless of the build/play outcomes, whose
failures only show up as the worker's logged exit. -/
theorem claim_C8_amended_start_errors :
    ∀ (host : Host) (s : MicState) (n : Option String),
      s.is_capturing = false →
      (∀ e, find_device host n = .error e →
        start_mic_capture host s n = (.error e, s)) ∧
      (∀ d e, find_device host n = .ok d →
        d.default_input_config = .error e →
        start_mic_capture host s n =
          (.error ("Failed to get input config: " ++ e), s)) ∧
      (∀ d cfg, find_device host n = .ok d →
        d.default_input_config = .ok cfg →
        (start_mic_capture host s n).1 = .ok cfg.sample_rate) := by
  intro host s n hcap
  refine ⟨?_, ?_, ?_⟩
  · intro e he
    unfold start_mic_capture
    rw [if_neg (by rw [hcap]; exact Bool.false_ne_true), he]
  · intro d e hd he
    unfold start_mic_capture
    rw [if_neg (by rw [hcap]; exact Bool.false_ne_true), hd]
    dsimp only
    rw [he]
  · intro d cfg hd hcfg
    unfold start_mic_capture
    rw [if_neg (by rw [hcap]; exact Bool.false_ne_true), hd]
    dsimp only
    rw [hcfg]

theorem claim_C8_witness :
    start_mic_capture hostNoDev ⟨false, false⟩ none =
      (Except.error "No input device available", ⟨false, false⟩) ∧
    (start_mic_capture hostBuildFail ⟨false, false⟩ none).1 =
      Except.ok 48000 := by
  constructor
  · exact (claim_C8_amended_start_errors hostNoDev ⟨false, false⟩ none
      rfl).1 "No input device available" rfl
  · exact (claim_C8_amended_start_errors hostBuildFail ⟨false, false⟩ none
      rfl).2.2 devBuildFail
      { sample_rate := 48000, channels := 1, sample_format := .f32 } rfl rfl

/-- C9: a successful `start_mic_capture` sets `is_capturing`; the worker
thread never writes the shared flags, whatever its exit (device, config,
format, build or play failure included); only `stop_mic_capture` clears the
flag; `is_mic_capturing` merely reports it.  Consequently, on a host whose
stream cannot be built, `is_mic_capturing` reports `true` although no audio
stream exists. -/
theorem claim_C9_capturing_flag :
    (∀ (host : Host) (s : MicState) (n : Option String) (r : Nat)
        (s' : MicState),
      start_mic_capture host s n = (.ok r, s') → s'.is_capturing = true) ∧
    (∀ (host : Host) (s : MicState) (n : Option String),
      s.is_capturing = true →
      (start_mic_capture host s n).2.is_capturing = true) ∧
    (∀ (host : Host) (n : Option String) (s : MicState),
      (run_mic_capture_thread host n s).2 = s) ∧
    (∀ s : MicState, (stop_mic_capture s).is_capturing = false) ∧
    (∀ s : MicState, is_mic_capturing s = s.is_capturing) ∧
    ((start_mic_capture hostBuildFail ⟨false, false⟩ none).1 =
        Except.ok 48000 ∧
      (run_mic_capture_thread hostBuildFail none
        (start_mic_capture hostBuildFail ⟨false, false⟩ none).2).1 =
        WorkerExit.buildError ∧
      is_mic_capturing
        (run_mic_capture_thread hostBuildFail none
          (start_mic_capture hostBuildFail ⟨false, false⟩ none).2).2 =
        true) := by
  refine ⟨?_, ?_, ?_, ?_, ?_, rfl, rfl, rfl⟩
  · intro host s n r s' h
    unfold start_mic_capture at h
    split at h
    · simp at h
    · split at h
      · simp at h
      · split at h
        · simp at h
        · rw [Prod.mk.injEq] at h
          rw [← h.2]
  · intro host s n hcap
    unfold start_mic_capture
    rw [if_pos hcap]
    exact hcap
  · intro host n s
    unfold run_mic_capture_thread
    repeat' split
    all_goals rfl
  · intro s
    rfl
  · intro s
    rfl

theorem claim_C9_witness :
    ((start_mic_capture hostBuildFail ⟨false, false⟩ none).2).is_capturing =
      true ∧
    (stop_mic_capture ⟨true, false⟩).is_capturing = false := by
  constructor
  · exact claim_C9_capturing_flag.1 hostBuildFail ⟨false, false⟩ none 48000
      (start_mic_capture hostBuildFail ⟨false, false⟩ none).2 rfl
  · exact claim_C9_capturing_flag.2.2.2.1 ⟨true, false⟩

/-! ### Interleaving of `stop_mic_capture` with the worker's poll loop

`stop_mic_capture` stores `stop_flag := true` and `is_capturing := false`
and then joins the worker's thread handle; the worker polls `stop_flag`
every 50 ms and, once it observes `true`, leaves the loop, drops the stream
(releasing the microphone) and exits, which is what lets the join return.
The model is a small-step relation over the shared flags plus both
parties' control points; `WorkerPhase.done` holds exactly when the loop has
exited and the stream has been dropped. -/

/-- Worker control point: inside the poll loop holding the live stream, or
exited with the stream dropped. -/
inductive WorkerPhase where
  | running
  | done
  deriving DecidableEq

/-- Stop-caller control point. -/
inductive StopPhase where
  | notCalled
  | flagsSet
  | joining
  | returned
  deriving DecidableEq

/-- The shared state of the stop caller and the worker. -/
structure Sys where
  stop_flag : Bool
  is_capturing : Bool
  worker : WorkerPhase
  stopper : StopPhase
  deriving DecidableEq

/-- One interleaved step of the system: the worker polls (and sleeps) or
observes the flag and exits dropping the stream; the stop caller stores the
two flags, calls join, and join returns only once the worker has exited. -/
inductive Step : Sys → Sys → Prop where
  | workerPoll (s : Sys) :
      s.worker = .running → s.stop_flag = false → Step s s
  | workerExit (s : Sys) :
      s.worker = .running → s.stop_flag = true →
      Step s { s with worker := .done }
  | stopSetFlags (s : Sys) :
      s.stopper = .notCalled →
      Step s { s with stop_flag := true, is_capturing := false,
                      stopper := .flagsSet }
  | stopJoinCall (s : Sys) :
      s.stopper = .flagsSet → Step s { s with stopper := .joining }
  | stopJoinRet (s : Sys) :
      s.stopper = .joining → s.worker = .done →
      Step s { s with stopper := .returned }

/-- The safety invariant: once `stop` has run its stores, the cancellation
signal is set and the capturing flag cleared; and `stop` can only have
returned after the worker exited and dropped the stream. -/
def StopInv (s : Sys) : Prop :=
  (s.stopper ≠ .notCalled → s.stop_flag = true ∧ s.is_capturing = false) ∧
  (s.stopper = .returned → s.worker = .done)

theorem Step_preserves_StopInv {s s' : Sys} (h : Step s s')
    (hinv : StopInv s) : StopInv s' := by
  obtain ⟨h1, h2⟩ := hinv
  cases h with
  | workerPoll hw hf => exact ⟨h1, h2⟩
  | workerExit hw hf =>
    exact ⟨h1, fun _ => rfl⟩
  | stopSetFlags hs =>
    exact ⟨fun _ => ⟨rfl, rfl⟩, fun hr => by simp at hr⟩
  | stopJoinCall hs =>
    refine ⟨fun _ => h1 (by rw [hs]; intro hx; cases hx), fun hr => by
      simp at hr⟩
  | stopJoinRet hs hw =>
    exact ⟨fun _ => h1 (by rw [hs]; intro hx; cases hx), fun _ => hw⟩

/-- C10: starting from a capture in progress (worker polling, stop not yet
called), in every interleaving of the stop call with the worker's polling
cycle: once `stop` has been invoked the cancellation signal is set and the
capturing flag cleared, and whenever `stop` has returned the worker has
fully exited and dropped the stream — the hardware is released by the time
`stop` completes. -/
theorem claim_C10_stop_waits_for_worker :
    ∀ s0 s : Sys,
      s0.worker = WorkerPhase.running → s0.stopper = StopPhase.notCalled →
      Relation.ReflTransGen Step s0 s →
      (s.stopper ≠ StopPhase.notCalled →
        s.stop_flag = true ∧ s.is_capturing = false) ∧
      (s.stopper = StopPhase.returned → s.worker = WorkerPhase.done) := by
  intro s0 s hw0 hs0 hreach
  have hinv : StopInv s := by
    induction hreach with
    | refl =>
      exact ⟨fun hne => absurd hs0 hne, fun hr => by rw [hs0] at hr; cases hr⟩
    | tail _ hstep ih => exact Step_preserves_StopInv hstep ih
  exact hinv

theorem claim_C10_witness :
    (⟨true, false, .done, .returned⟩ : Sys).worker = WorkerPhase.done ∧
    (⟨true, false, .done, .returned⟩ : Sys).stop_flag = true ∧
    (⟨true, false, .done, .returned⟩ : Sys).is_capturing = false := by
  have hreach : Relation.ReflTransGen Step
      ⟨false, true, .running, .notCalled⟩ ⟨true, false, .done, .returned⟩ :=
    Relation.ReflTransGen.tail
      (Relation.ReflTransGen.tail
        (Relation.ReflTransGen.tail
          (Relation.ReflTransGen.tail Relation.ReflTransGen.refl
            (Step.stopSetFlags ⟨false, true, .running, .notCalled⟩ rfl))
          (Step.stopJoinCall ⟨true, false, .running, .flagsSet⟩ rfl))
        (Step.workerExit ⟨true, false, .running, .joining⟩ rfl rfl))
      (Step.stopJoinRet ⟨true, false, .done, .joining⟩ rfl rfl)
  have h := claim_C10_stop_waits_for_worker
    ⟨false, true, .running, .notCalled⟩ ⟨true, false, .done, .returned⟩
    rfl rfl hreach
  exact ⟨h.2 rfl, (h.1 (by intro hx; cases hx)).1,
    (h.1 (by intro hx; cases hx)).2⟩
